import Mathlib

/-!
Verification of the safe-parser repository (a sandboxed interpreter for a
restricted expression grammar) against its natural-language specification.

The development shallowly embeds the three source modules:

* `safeparser/safe_env.py` — the protected environment view (`SafeEnv`);
* `safeparser/plugins.py`  — the plugin registry (`PluginStore`);
* `safeparser/parser.py`   — the validator (`SafeCodeValidator`), the
  environment injector (`EnvironmentInjector`) and the evaluator (`Parser`).

Python strings are modelled as lists of characters, Python dicts as
insertion-ordered association lists, and host-supplied plugin callables as
Lean functions (they are external, trusted collaborators of the repository).
-/

namespace SafeParser

/-- Keys of the environment mapping are Python strings, modelled as lists of
characters so that the `startswith` / `endswith` tests of the source become
list-prefix and list-suffix tests. -/
abbrev Key := List Char

/-- Turns a Lean string literal into a `Key`. -/
def key (s : String) : Key := s.toList

/-- The two-character reserved marker (a double underscore) that bounds hidden
keys. -/
def marker : Key := key "__"

namespace SafeEnv

/-- Embeds `SafeEnv.hidden` from `safe_env.py`:
`key.startswith('__') and key.endswith('__')`. -/
def hidden (k : Key) : Bool :=
  marker.isPrefixOf k && marker.isSuffixOf k

/-- Restates the hidden-key predicate in the words of the specification
("starts and ends with a two-character reserved marker and has length ≥ 4"),
to be compared with the `hidden` predicate embedded from the source. -/
def hiddenSpec (k : Key) : Bool :=
  marker.isPrefixOf k && marker.isSuffixOf k && decide (4 ≤ k.length)

end SafeEnv

/-- Lookup in an insertion-ordered mapping (Python `d[k]` read access,
ignoring the possibility of failure). -/
def dictGet? (d : List (Key × α)) (k : Key) : Option α :=
  match d with
  | [] => none
  | (k2, v) :: rest => if k2 = k then some v else dictGet? rest k

/-- Key-membership test of a Python dict (`k in d`). -/
def dictHas (d : List (Key × α)) (k : Key) : Bool :=
  (dictGet? d k).isSome

/-- Write access `d[k] = v` of a Python dict: an existing key keeps its
position and gets the new value, a new key is appended at the end. -/
def dictSet (d : List (Key × α)) (k : Key) (v : α) : List (Key × α) :=
  match d with
  | [] => [(k, v)]
  | (k2, v2) :: rest =>
      if k2 = k then (k2, v) :: rest else (k2, v2) :: dictSet rest k v

/-- Deletion `del d[k]` of a Python dict.  Keys of a Python dict are unique,
so removing every entry carrying the key coincides with removing the entry. -/
def dictDel (d : List (Key × α)) (k : Key) : List (Key × α) :=
  d.filter (fun e => !decide (e.1 = k))

namespace SafeEnv

/-- Errors of the protected view: `KeyError('Unsafe key: ...')` for an access
to a hidden key (the ProtectedKeyError of the specification) and the plain
`KeyError` of the inner dict for a missing visible key. -/
inductive EnvErr where
  | protectedKey (k : Key)
  | missing (k : Key)
deriving DecidableEq

/-- Embeds `SafeEnv.__getitem__`: a hidden key fails with the protected-key
error; otherwise the access is delegated to the inner dict. -/
def getItem (inner : List (Key × α)) (k : Key) : Except EnvErr α :=
  if hidden k then .error (.protectedKey k)
  else
    match dictGet? inner k with
    | some v => .ok v
    | none => .error (.missing k)

/-- Embeds `SafeEnv.__setitem__`, returning the new inner dict. -/
def setItem (inner : List (Key × α)) (k : Key) (v : α) :
    Except EnvErr (List (Key × α)) :=
  if hidden k then .error (.protectedKey k)
  else .ok (dictSet inner k v)

/-- Embeds `SafeEnv.__delitem__`, returning the new inner dict. -/
def delItem (inner : List (Key × α)) (k : Key) :
    Except EnvErr (List (Key × α)) :=
  if hidden k then .error (.protectedKey k)
  else if dictHas inner k then .ok (dictDel inner k)
  else .error (.missing k)

/-- Embeds `SafeEnv.get`: a hidden key yields the default, otherwise the
access is delegated to the inner dict with the same default. -/
def get (inner : List (Key × α)) (k : Key) (default : α) : α :=
  if hidden k then default
  else
    match dictGet? inner k with
    | some v => v
    | none => default

/-- Embeds `SafeEnv.setdefault`, returning the resulting value together with
the new inner dict. -/
def setdefault (inner : List (Key × α)) (k : Key) (default : α) :
    Except EnvErr (α × List (Key × α)) :=
  if hidden k then .error (.protectedKey k)
  else
    match dictGet? inner k with
    | some v => .ok (v, inner)
    | none => .ok (default, dictSet inner k default)

/-- Embeds the loop of `SafeEnv.popitem`.  The first argument is the reversed
inner dict still to be scanned (Python `dict.popitem` removes from the tail);
the second accumulates the hidden items already removed, in an order such
that reinserting them is plain list append.  Returns the result of the loop
(`none` models the final `raise KeyError`) together with the restored inner
dict. -/
def popitemAux (rev collected : List (Key × α)) :
    Option (Key × α) × List (Key × α) :=
  match rev with
  | [] => (none, collected)
  | e :: rest =>
      if hidden e.1 then popitemAux rest (e :: collected)
      else (some e, rest.reverse ++ collected)

/-- Embeds `SafeEnv.popitem`: scan the inner dict from its tail, set aside
hidden items, stop at the first visible item, reinsert the set-aside hidden
items in reverse removal order.  The first component is the popped item
(`none` models the `KeyError` raised when no visible entry remains) and the
second is the inner dict afterwards. -/
def popitem (inner : List (Key × α)) :
    Option (Key × α) × List (Key × α) :=
  popitemAux inner.reverse []

end SafeEnv

/-! Embedding of `parser.py` and `plugins.py`.  The external text-to-tree
parser (`ast.parse`) is a black box outside the repository, so the embedded
`Parser.parse` starts from the raw syntax tree.  Host-supplied plugin
callables are arbitrary external Python functions; they are modelled as Lean
functions from their arguments (and the backing environment they may inspect
through the injected protected view) to a result or an exception. -/

/-- Constants of the accepted grammar (number, string, boolean, null). -/
inductive Const where
  | int (n : Int)
  | str (s : Key)
  | bool (b : Bool)
  | none
deriving DecidableEq

/-- Expression nodes of the raw syntax tree.  Every node carries its source
line.  `other` stands for every node class the validator has no visitor
method for (operators, attribute and subscript access, lambdas, tuples, …),
which `SafeCodeValidator.generic_visit` rejects. -/
inductive Expr where
  | name (id : Key) (ln : Nat)
  | constant (c : Const) (ln : Nat)
  | call (func : Expr) (args : List Expr) (keywords : List (Key × Expr)) (ln : Nat)
  | listLit (elts : List Expr) (ln : Nat)
  | setLit (elts : List Expr) (ln : Nat)
  | dictLit (entries : List (Expr × Expr)) (ln : Nat)
  | other (ln : Nat)

/-- Statement nodes.  `other` stands for every statement class without a
visitor method (loops, conditionals, imports, definitions, …). -/
inductive Stmt where
  | assign (targets : List Expr) (value : Expr) (ln : Nat)
  | exprStmt (value : Expr) (ln : Nat)
  | other (ln : Nat)

/-- A module node: the list of top-level statements. -/
structure Module where
  body : List Stmt

/-- Runtime values.  Python objects relevant to the sandbox: the constants,
the three container shapes, plugin function objects (identified by their
registry name, the registry being fixed during a submission) and the
protected-view handle bound to `__env__`. -/
inductive Value where
  | int (n : Int)
  | str (s : Key)
  | bool (b : Bool)
  | none
  | list (elts : List Value)
  | set (elts : List Value)
  | dict (entries : List (Value × Value))
  | funcRef (id : Key)
  | envHandle

/-- The environment: an insertion-ordered mapping from names to values. -/
abbrev PyDict := List (Key × Value)

/-- Exceptions escaping Python `eval` of a compiled expression:
a `NameError` (the only class `Parser.evaluate_expr` catches and wraps) and
any other exception (`TypeError` from calling a non-callable, arbitrary
exceptions raised inside plugin code, …), which propagates unwrapped. -/
inductive PyErr where
  | nameError (id : Key)
  | hostError
deriving DecidableEq

/-- A plugin callable: `wantsEnv` records whether `env` occurs among the
keyword-only parameters of the host function (the fact
`EnvironmentInjector.visit_Call` reads off via `inspect.getfullargspec`);
`impl` is the external host code, given the positional arguments, the keyword
arguments and the backing environment reachable through the injected
protected view. -/
structure PluginFn where
  wantsEnv : Bool
  impl : List Value → List (Key × Value) → PyDict → Except PyErr Value

/-- A registry entry: a callable or a plain (non-callable) value. -/
inductive Plugin where
  | func (f : PluginFn)
  | value (v : Value)

/-- Embeds `PluginStore` from `plugins.py`: name-to-plugin bindings. -/
structure PluginStore where
  plugins : List (Key × Plugin)

/-- Embeds `PluginStore.get` (as an option instead of a `KeyError`). -/
def PluginStore.get? (ps : PluginStore) (id : Key) : Option Plugin :=
  dictGet? ps.plugins id

/-- Embeds `PluginStore.has`. -/
def PluginStore.has (ps : PluginStore) (id : Key) : Bool :=
  dictHas ps.plugins id

/-- Distinct `ParserException` outcomes of `parser.py`, told apart by the
message they are raised with, together with `hostError` for the exceptions
that are not `ParserException` and escape `Parser.parse` unwrapped. -/
inductive PErr where
  | illegalSyntax (ln : Nat)
  | illegalAssignPlugin (ln : Nat) (id : Key)
  | illegalAssignDunder (ln : Nat) (id : Key)
  | illegalAssignExisting (ln : Nat) (id : Key)
  | unknownPlugin (ln : Nat) (id : Key)
  | nameResolution (id : Key)
  | hostError
deriving DecidableEq

/-- Tests whether an error is the UnknownPluginError of the specification. -/
def PErr.isUnknownPlugin : PErr → Bool
  | .unknownPlugin _ _ => true
  | _ => false

/-- The double-underscore test of `SafeCodeValidator.visit_Assign`:
`identifier.startswith('__') and identifier.endswith('__')`. -/
def dunder (id : Key) : Bool :=
  marker.isPrefixOf id && marker.isSuffixOf id

mutual

/-- Embeds the expression part of `SafeCodeValidator` (`visit_Call`,
`visit_List`, `visit_Set`, `visit_Dict`, the leaf visitors and
`generic_visit`): a whitelist-closed top-down traversal whose first violation
raises `ParserException`. -/
def validateExpr (ps : PluginStore) : Expr → Except PErr Unit
  | .name _ _ => .ok ()
  | .constant _ _ => .ok ()
  | .call func args kws ln =>
      match func with
      | .name _ _ =>
          match validateExprList ps args with
          | .error e => .error e
          | .ok () => validateKwList ps kws
      | _ => .error (.illegalSyntax ln)
  | .listLit elts _ => validateExprList ps elts
  | .setLit elts _ => validateExprList ps elts
  | .dictLit entries _ =>
      match validateDictKeys ps entries with
      | .error e => .error e
      | .ok () => validateDictValues ps entries
  | .other ln => .error (.illegalSyntax ln)

/-- Visits a list of child expressions in order, stopping at the first
violation. -/
def validateExprList (ps : PluginStore) : List Expr → Except PErr Unit
  | [] => .ok ()
  | e :: rest =>
      match validateExpr ps e with
      | .error err => .error err
      | .ok () => validateExprList ps rest

/-- Visits the value of every keyword argument in order. -/
def validateKwList (ps : PluginStore) : List (Key × Expr) → Except PErr Unit
  | [] => .ok ()
  | (_, v) :: rest =>
      match validateExpr ps v with
      | .error err => .error err
      | .ok () => validateKwList ps rest

/-- Visits every key of a dict literal in order (`visit_Dict` visits all keys
before any value). -/
def validateDictKeys (ps : PluginStore) : List (Expr × Expr) → Except PErr Unit
  | [] => .ok ()
  | (k, _) :: rest =>
      match validateExpr ps k with
      | .error err => .error err
      | .ok () => validateDictKeys ps rest

/-- Visits every value of a dict literal in order. -/
def validateDictValues (ps : PluginStore) : List (Expr × Expr) → Except PErr Unit
  | [] => .ok ()
  | (_, v) :: rest =>
      match validateExpr ps v with
      | .error err => .error err
      | .ok () => validateDictValues ps rest

end

/-- Embeds the statement part of `SafeCodeValidator` (`visit_Expr`,
`visit_Assign` and `generic_visit`). -/
def validateStmt (ps : PluginStore) : Stmt → Except PErr Unit
  | .assign targets value ln =>
      match targets with
      | [.name id _] =>
          if ps.has id then .error (.illegalAssignPlugin ln id)
          else if dunder id then .error (.illegalAssignDunder ln id)
          else validateExpr ps value
      | [_] => .error (.illegalSyntax ln)
      | _ => .error (.illegalSyntax ln)
  | .exprStmt (.call func args kws cln) _ =>
      validateExpr ps (.call func args kws cln)
  | .exprStmt _ ln => .error (.illegalSyntax ln)
  | .other ln => .error (.illegalSyntax ln)

/-- Embeds `SafeCodeValidator.visit_Module`: visit each top-level statement,
aborting at the first violation. -/
def validateStmts (ps : PluginStore) : List Stmt → Except PErr Unit
  | [] => .ok ()
  | s :: rest =>
      match validateStmt ps s with
      | .error e => .error e
      | .ok () => validateStmts ps rest

/-- Validation of a whole module. -/
def validateModule (ps : PluginStore) (m : Module) : Except PErr Unit :=
  validateStmts ps m.body

/-- Embeds the body of `EnvironmentInjector.visit_Call`: when the callee
names a registered callable plugin whose keyword-only parameters include
`env`, append the synthetic keyword argument `env=__env__` (a `Name` node
with line 0).  The source reads `node.func.id`, so a non-`Name` callee would
raise `AttributeError`; the injector only runs on validated expressions,
where that cannot happen, and the embedding leaves such calls unchanged. -/
def injectCallKeywords (ps : PluginStore) (func : Expr)
    (kws : List (Key × Expr)) : List (Key × Expr) :=
  match func with
  | .name id _ =>
      match ps.get? id with
      | some (.func f) =>
          if f.wantsEnv then kws ++ [(key "env", .name (key "__env__") 0)]
          else kws
      | _ => kws
  | _ => kws

mutual

/-- Embeds the traversal of `EnvironmentInjector` (an `ast.NodeVisitor` whose
only visitor method is `visit_Call`): on a `Call` node, `visit_Call` runs and
returns without visiting any child, so neither the callee nor the arguments
nor the keyword values are recursed into; on every other node, the default
`generic_visit` recurses into the children. -/
def injectExpr (ps : PluginStore) : Expr → Expr
  | .call func args kws ln => .call func args (injectCallKeywords ps func kws) ln
  | .name id ln => .name id ln
  | .constant c ln => .constant c ln
  | .listLit elts ln => .listLit (injectExprList ps elts) ln
  | .setLit elts ln => .setLit (injectExprList ps elts) ln
  | .dictLit entries ln => .dictLit (injectExprPairs ps entries) ln
  | .other ln => .other ln

/-- Child-by-child traversal of `generic_visit` for list-valued fields. -/
def injectExprList (ps : PluginStore) : List Expr → List Expr
  | [] => []
  | e :: rest => injectExpr ps e :: injectExprList ps rest

/-- Traversal of the keys and values of a dict literal. -/
def injectExprPairs (ps : PluginStore) : List (Expr × Expr) → List (Expr × Expr)
  | [] => []
  | (k, v) :: rest => (injectExpr ps k, injectExpr ps v) :: injectExprPairs ps rest

end

/-- Name lookup against the globals `eval` receives: a fresh dict updated
first with the environment and then with the plugin bindings, so plugin
names shadow environment names.  A registered callable denotes its function
object, a registered value denotes itself. -/
def globalsLookup (ps : PluginStore) (env : PyDict) (id : Key) : Option Value :=
  match ps.get? id with
  | some (.func _) => some (.funcRef id)
  | some (.value v) => some v
  | none => dictGet? env id

/-- Application of an evaluated callee: only plugin function objects are
callable; calling any other value raises `TypeError` (a non-`NameError`
exception). -/
def applyCallable (ps : PluginStore) (env : PyDict) (fv : Value)
    (args : List Value) (kwargs : List (Key × Value)) : Except PyErr Value :=
  match fv with
  | .funcRef id =>
      match ps.get? id with
      | some (.func f) => f.impl args kwargs env
      | _ => .error .hostError
  | _ => .error .hostError

mutual

/-- Embeds Python `eval` on the compiled restricted expression, the execution
backend of `Parser.evaluate_expr`: constants evaluate to themselves, names
resolve against the globals (else `NameError`), container literals evaluate
their children recursively, and a call evaluates its callee, its positional
arguments and its keyword values in order before applying the callee. -/
def pyEval (ps : PluginStore) (env : PyDict) : Expr → Except PyErr Value
  | .name id _ =>
      match globalsLookup ps env id with
      | some v => .ok v
      | none => .error (.nameError id)
  | .constant c _ =>
      match c with
      | .int n => .ok (.int n)
      | .str s => .ok (.str s)
      | .bool b => .ok (.bool b)
      | .none => .ok .none
  | .call func args kws _ =>
      match pyEval ps env func with
      | .error e => .error e
      | .ok fv =>
          match pyEvalList ps env args with
          | .error e => .error e
          | .ok avs =>
              match pyEvalKwList ps env kws with
              | .error e => .error e
              | .ok kvs => applyCallable ps env fv avs kvs
  | .listLit elts _ =>
      match pyEvalList ps env elts with
      | .error e => .error e
      | .ok vs => .ok (.list vs)
  | .setLit elts _ =>
      match pyEvalList ps env elts with
      | .error e => .error e
      | .ok vs => .ok (.set vs)
  | .dictLit entries _ =>
      match pyEvalDict ps env entries with
      | .error e => .error e
      | .ok pairs => .ok (.dict pairs)
  | .other _ => .error .hostError

/-- Left-to-right evaluation of a list of expressions. -/
def pyEvalList (ps : PluginStore) (env : PyDict) :
    List Expr → Except PyErr (List Value)
  | [] => .ok []
  | e :: rest =>
      match pyEval ps env e with
      | .error err => .error err
      | .ok v =>
          match pyEvalList ps env rest with
          | .error err => .error err
          | .ok vs => .ok (v :: vs)

/-- Left-to-right evaluation of keyword-argument values. -/
def pyEvalKwList (ps : PluginStore) (env : PyDict) :
    List (Key × Expr) → Except PyErr (List (Key × Value))
  | [] => .ok []
  | (k, e) :: rest =>
      match pyEval ps env e with
      | .error err => .error err
      | .ok v =>
          match pyEvalKwList ps env rest with
          | .error err => .error err
          | .ok vs => .ok ((k, v) :: vs)

/-- Pairwise evaluation of a dict literal: each key, then its value. -/
def pyEvalDict (ps : PluginStore) (env : PyDict) :
    List (Expr × Expr) → Except PyErr (List (Value × Value))
  | [] => .ok []
  | (k, v) :: rest =>
      match pyEval ps env k with
      | .error err => .error err
      | .ok kv =>
          match pyEval ps env v with
          | .error err => .error err
          | .ok vv =>
              match pyEvalDict ps env rest with
              | .error err => .error err
              | .ok pairs => .ok ((kv, vv) :: pairs)

end

/-- Embeds `Parser.evaluate_expr`: when the expression itself is a `Call`
whose callee is not a registered plugin name, raise the unknown-plugin
`ParserException` (the check looks only at the outermost node); otherwise run
the injector over the expression (`Parser.compile_expr`) and hand it to
`eval`, wrapping a `NameError` into a `ParserException` and letting every
other exception propagate. -/
def evaluateExpr (ps : PluginStore) (env : PyDict) (expr : Expr) :
    Except PErr Value :=
  match expr with
  | .call (.name id _) _ _ ln =>
      if ps.has id then
        match pyEval ps env (injectExpr ps expr) with
        | .ok v => .ok v
        | .error (.nameError nid) => .error (.nameResolution nid)
        | .error .hostError => .error .hostError
      else .error (.unknownPlugin ln id)
  | _ =>
      match pyEval ps env (injectExpr ps expr) with
      | .ok v => .ok v
      | .error (.nameError nid) => .error (.nameResolution nid)
      | .error .hostError => .error .hostError

/-- Embeds `Parser.execute_assign`: reject a target name that already exists
in the environment, otherwise evaluate the right-hand side and bind the
result.  The source reads `stmt.targets[0].id`; a first target that is not a
plain name would raise `AttributeError` (impossible for validated input, kept
as a non-`ParserException` error here). -/
def executeAssign (ps : PluginStore) (env : PyDict) (targets : List Expr)
    (value : Expr) (ln : Nat) : Except PErr Unit × PyDict :=
  match targets with
  | .name id _ :: _ =>
      if dictHas env id then (.error (.illegalAssignExisting ln id), env)
      else
        match evaluateExpr ps env value with
        | .ok v => (.ok (), dictSet env id v)
        | .error e => (.error e, env)
  | _ => (.error .hostError, env)

/-- Embeds `Parser.execute`: run the top-level statements in order, stopping
at the first exception; a statement that is neither an `Assign` nor an
expression statement raises the illegal-syntax `ParserException`. -/
def executeStmts (ps : PluginStore) : List Stmt → PyDict →
    Except PErr Unit × PyDict
  | [], env => (.ok (), env)
  | stmt :: rest, env =>
      match stmt with
      | .assign targets value ln =>
          match executeAssign ps env targets value ln with
          | (.ok (), env2) => executeStmts ps rest env2
          | (.error e, env2) => (.error e, env2)
      | .exprStmt value _ =>
          match evaluateExpr ps env value with
          | .ok _ => executeStmts ps rest env
          | .error e => (.error e, env)
      | .other ln => (.error (.illegalSyntax ln), env)

/-- The key of the no-builtins sentinel. -/
def builtinsKey : Key := key "__builtins__"

/-- The key of the environment-handle sentinel. -/
def envKey : Key := key "__env__"

/-- Embeds `Parser.prepare_environment`: bind the no-builtins sentinel to an
empty dict and the environment-handle sentinel to the protected view. -/
def prepareEnvironment (env : PyDict) : PyDict :=
  dictSet (dictSet env builtinsKey (.dict [])) envKey .envHandle

/-- Embeds `Parser.strip_environment`: delete both sentinels.  The source
uses `del`, which assumes the keys are present; `prepare_environment` put
them there and nothing in a submission can remove them. -/
def stripEnvironment (env : PyDict) : PyDict :=
  dictDel (dictDel env builtinsKey) envKey

/-- Embeds `Parser.parse` from the raw syntax tree on (the text-to-tree step
is the external parser): validate the whole module, then prepare the
environment, execute the statements and, in a `finally` block, strip the
sentinels whatever the outcome.  Returns the outcome together with the
environment as the caller observes it afterwards. -/
def Parser.parse (ps : PluginStore) (env : PyDict) (root : Module) :
    Except PErr Unit × PyDict :=
  match validateModule ps root with
  | .error e => (.error e, env)
  | .ok () =>
      match executeStmts ps root.body (prepareEnvironment env) with
      | (res, env2) => (res, stripEnvironment env2)

/-! Concrete sample registries, trees and measures used to instantiate the
theorems below on explicit inputs. -/

/-- Number of keyword arguments at the root of an expression; a convenient
observable telling trees produced by the injector apart. -/
def topKeywordCount : Expr → Nat
  | .call _ _ kws _ => kws.length
  | _ => 0

/-- The empty registry. -/
def psEmpty : PluginStore := ⟨[]⟩

/-- A registered callable that takes no environment handle and returns 0. -/
def trivialPlugin : PluginFn := ⟨false, fun _ _ _ => .ok (.int 0)⟩

/-- A registered callable with `env` among its keyword-only parameters. -/
def envWantingPlugin : PluginFn := ⟨true, fun _ _ _ => .ok (.int 0)⟩

/-- A registry holding the single callable plugin `f`. -/
def sampleStore : PluginStore := ⟨[(key "f", .func trivialPlugin)]⟩

/-- A registry holding the single environment-wanting plugin `ctx`. -/
def ctxStore : PluginStore := ⟨[(key "ctx", .func envWantingPlugin)]⟩

/-- The submission `a = 0`. -/
def sampleModule : Module := ⟨[.assign [.name (key "a") 1] (.constant (.int 0) 1) 1]⟩

/-- The submission `a = b = 0` (one `Assign` with two targets), which the
validator rejects. -/
def badModule : Module :=
  ⟨[.assign [.name (key "a") 1, .name (key "b") 1] (.constant (.int 0) 1) 1]⟩

/-- The expression `f(g())`: a registered outer callee with an unregistered
callee nested in its argument list. -/
def nestedUnknownCall : Expr :=
  .call (.name (key "f") 1) [.call (.name (key "g") 1) [] [] 1] [] 1

/-- The expression `ctx()`. -/
def ctxCall : Expr := .call (.name (key "ctx") 1) [] [] 1

/-- The expression `ctx(ctx())`: an environment-wanting call nested inside
another. -/
def ctxNestedCall : Expr :=
  .call (.name (key "ctx") 1) [.call (.name (key "ctx") 2) [] [] 2] [] 1

/-! Helper lemmas about the dictionary primitives, the popitem loop and the
statement executor. -/

/-- Setting a key makes it readable with the written value. -/
theorem dictGet?_dictSet_self {α : Type} (d : List (Key × α)) (k : Key) (v : α) :
    dictGet? (dictSet d k v) k = some v := by
  induction d with
  | nil => simp [dictSet, dictGet?]
  | cons e rest ih =>
      obtain ⟨k2, v2⟩ := e
      by_cases h : k2 = k
      · subst h; simp [dictSet, dictGet?]
      · simp [dictSet, dictGet?, h, ih]

/-- Setting one key does not change the lookup of another. -/
theorem dictGet?_dictSet_ne {α : Type} (d : List (Key × α)) (k j : Key) (v : α)
    (h : j ≠ k) : dictGet? (dictSet d k v) j = dictGet? d j := by
  induction d with
  | nil => simp [dictSet, dictGet?, Ne.symm h]
  | cons e rest ih =>
      obtain ⟨k2, v2⟩ := e
      by_cases h2 : k2 = k
      · subst h2
        simp [dictSet, dictGet?, Ne.symm h]
      · by_cases h3 : k2 = j
        · subst h3; simp [dictSet, dictGet?, h2]
        · simp [dictSet, dictGet?, h2, h3, ih]

/-- Deleting a key removes every trace of it. -/
theorem dictHas_dictDel_self {α : Type} (d : List (Key × α)) (k : Key) :
    dictHas (dictDel d k) k = false := by
  induction d with
  | nil => simp [dictDel, dictHas, dictGet?]
  | cons e rest ih =>
      obtain ⟨k2, v2⟩ := e
      by_cases h : k2 = k
      · simpa [dictDel, List.filter_cons, h] using ih
      · simpa [dictDel, List.filter_cons, dictHas, dictGet?, h] using ih

/-- Deleting a key cannot make another key appear. -/
theorem dictHas_dictDel_of_not {α : Type} (d : List (Key × α)) (k j : Key)
    (h : dictHas d j = false) : dictHas (dictDel d k) j = false := by
  induction d with
  | nil => simpa [dictDel] using h
  | cons e rest ih =>
      obtain ⟨k2, v2⟩ := e
      by_cases h2 : k2 = j
      · subst h2; simp [dictHas, dictGet?] at h
      · have h3 : dictHas rest j = false := by
          simpa [dictHas, dictGet?, h2] using h
        by_cases h4 : k2 = k
        · simpa [dictDel, List.filter_cons, h4] using ih h3
        · simpa [dictDel, List.filter_cons, dictHas, dictGet?, h2, h4] using ih h3

/-- Running the popitem loop over a tail that holds only hidden items
exhausts it and hands every item over to the collected list. -/
theorem popitemAux_all_hidden {α : Type} (rev : List (Key × α)) :
    ∀ collected, (∀ e ∈ rev, SafeEnv.hidden e.1 = true) →
    SafeEnv.popitemAux rev collected = (none, rev.reverse ++ collected) := by
  induction rev with
  | nil => intro c _; simp [SafeEnv.popitemAux]
  | cons e rest ih =>
      intro c h
      have he := h e (List.mem_cons_self e rest)
      rw [SafeEnv.popitemAux]
      simp only [he, if_true]
      rw [ih (e :: c) (fun x hx => h x (List.mem_cons_of_mem e hx))]
      simp

/-- Running the popitem loop over a tail of hidden items followed by a
visible item stops at that item, with the hidden items collected. -/
theorem popitemAux_finds_visible {α : Type} (hs : List (Key × α)) :
    ∀ (e : Key × α) rest collected, (∀ x ∈ hs, SafeEnv.hidden x.1 = true) →
    SafeEnv.hidden e.1 = false →
    SafeEnv.popitemAux (hs ++ e :: rest) collected
      = (some e, rest.reverse ++ (hs.reverse ++ collected)) := by
  induction hs with
  | nil =>
      intro e rest c _ hv
      rw [List.nil_append, SafeEnv.popitemAux]
      simp [hv]
  | cons x xs ih =>
      intro e rest c hh hv
      have hx := hh x (List.mem_cons_self x xs)
      rw [List.cons_append, SafeEnv.popitemAux]
      simp only [hx, if_true]
      rw [ih e rest (x :: c) (fun y hy => hh y (List.mem_cons_of_mem x hy)) hv]
      simp

/-- A successfully executed prefix of statements factors out of the
executor. -/
theorem executeStmts_append_of_ok (ps : PluginStore) (pre : List Stmt) :
    ∀ env env1 rest, executeStmts ps pre env = (.ok (), env1) →
    executeStmts ps (pre ++ rest) env = executeStmts ps rest env1 := by
  induction pre with
  | nil =>
      intro env env1 rest h
      simp only [executeStmts] at h
      cases h
      rw [List.nil_append]
  | cons s ss ih =>
      intro env env1 rest h
      rw [List.cons_append]
      cases s with
      | assign targets value ln =>
          simp only [executeStmts] at h ⊢
          rcases hx : executeAssign ps env targets value ln with ⟨res, env2⟩
          rw [hx] at h
          cases res with
          | ok u =>
              cases u
              exact ih env2 env1 rest h
          | error e => simp at h
      | exprStmt value ln =>
          simp only [executeStmts] at h ⊢
          cases hx : evaluateExpr ps env value with
          | ok v => rw [hx] at h; exact ih env env1 rest h
          | error e => rw [hx] at h; simp at h
      | other ln =>
          simp only [executeStmts] at h
          simp at h

/-- Every statement of a list that the validator accepts is an assignment or
an expression statement. -/
theorem validateStmts_ok_shapes (ps : PluginStore) (l : List Stmt)
    (h : validateStmts ps l = .ok ()) :
    ∀ stmt ∈ l, (∃ ts v ln, stmt = .assign ts v ln) ∨
      (∃ v ln, stmt = .exprStmt v ln) := by
  induction l with
  | nil => intro s hs; cases hs
  | cons s ss ih =>
      intro stmt hmem
      simp only [validateStmts] at h
      cases hx : validateStmt ps s with
      | error e => rw [hx] at h; cases h
      | ok u =>
          cases u
          rw [hx] at h
          rcases List.mem_cons.mp hmem with rfl | hmem2
          · cases stmt with
            | assign ts v ln => exact Or.inl ⟨ts, v, ln, rfl⟩
            | exprStmt v ln => exact Or.inr ⟨v, ln, rfl⟩
            | other ln => simp [validateStmt] at hx
          · exact ih h stmt hmem2

/-! Claims. -/

/-- C1: every submission the Safety Validator rejects leaves the Environment
exactly as it was before the submission — `Parser.parse` reports the
validation error with the environment unchanged, because validation of the
whole tree completes before any statement is evaluated or any sentinel key
is inserted. -/
theorem c1_rejected_submission_leaves_environment_unchanged
    (ps : PluginStore) (env : PyDict) (root : Module) (e : PErr)
    (h : validateModule ps root = .error e) :
    Parser.parse ps env root = (.error e, env) := by
  simp [Parser.parse, h]

/-- C1 witness: the multi-target submission `a = b = 0` is rejected and a
one-entry environment comes back untouched. -/
theorem c1_witness :
    Parser.parse psEmpty [(key "x", .int 5)] badModule
      = (.error (.illegalSyntax 1), [(key "x", .int 5)]) :=
  c1_rejected_submission_leaves_environment_unchanged psEmpty
    [(key "x", .int 5)] badModule (.illegalSyntax 1) (by rfl)

/-- C2 counterexample: the key consisting of the bare marker `__` is hidden
for the code although it has length 2, while the specification's predicate
(marker on both ends and length at least 4) rejects it — so a key shorter
than 4 characters can be hidden. -/
theorem c2_short_key_counterexample :
    SafeEnv.hidden (key "__") = true ∧ SafeEnv.hiddenSpec (key "__") = false ∧
    (key "__").length < 4 := by decide

/-- C2 amended: the hidden-key predicate of the code agrees with the
specification's predicate except on the two short keys `__` and `___`, which
start and end with the marker with the two occurrences overlapping and are
hidden despite having length below 4. -/
theorem c2_hidden_matches_spec_plus_short_keys (k : Key) :
    SafeEnv.hidden k
      = (SafeEnv.hiddenSpec k || decide (k = key "__") || decide (k = key "___")) := by
  unfold SafeEnv.hidden SafeEnv.hiddenSpec
  cases hp : marker.isPrefixOf k with
  | false =>
      have h2 : ¬(k = key "__") := by
        intro hk; subst hk; revert hp; decide
      have h3 : ¬(k = key "___") := by
        intro hk; subst hk; revert hp; decide
      simp [h2, h3]
  | true =>
      cases hs : marker.isSuffixOf k with
      | false =>
          have h2 : ¬(k = key "__") := by
            intro hk; subst hk; revert hs; decide
          have h3 : ¬(k = key "___") := by
            intro hk; subst hk; revert hs; decide
          simp [h2, h3]
      | true =>
          simp only [Bool.true_and, Bool.and_true]
          by_cases hl : 4 ≤ k.length
          · simp [hl]
          · obtain ⟨t, ht⟩ := List.isPrefixOf_iff_prefix.mp hp
            have hml : marker.length = 2 := by decide
            have hkl : k.length = 2 + t.length := by
              rw [← ht, List.length_append, hml]
            cases t with
            | nil =>
                have hk : k = key "__" := by rw [← ht]; rfl
                rw [hk]; decide
            | cons c t2 =>
                cases t2 with
                | nil =>
                    rw [← ht] at hs
                    have hc : c = '_' := by
                      have h4 : ('_' : Char) = c := by
                        simpa [List.isSuffixOf, marker, key, List.isPrefixOf] using hs
                      exact h4.symm
                    subst hc
                    have hk : k = key "___" := by rw [← ht]; rfl
                    rw [hk]; decide
                | cons c2 t3 =>
                    exfalso
                    rw [hkl] at hl
                    simp only [List.length_cons] at hl
                    omega

/-- C3 counterexample: with a registered env-wanting callable `ctx`, the
injector leaves the inner call of `ctx(ctx())` without any synthetic keyword
(it does not apply to Call nodes nested inside another Call), and applying
the injector twice to `ctx()` appends two keywords where one application
appends one (it is not idempotent). -/
theorem c3_injector_counterexample :
    injectExpr ctxStore ctxNestedCall
      = .call (.name (key "ctx") 1) [.call (.name (key "ctx") 2) [] [] 2]
          [(key "env", .name (key "__env__") 0)] 1 ∧
    topKeywordCount (injectExpr ctxStore (injectExpr ctxStore ctxCall)) = 2 ∧
    topKeywordCount (injectExpr ctxStore ctxCall) = 1 :=
  ⟨rfl, rfl, rfl⟩

/-- C3 amended: the Environment Injector rewrites only Call nodes that are
not enclosed in another Call; for such a Call whose callee names a
registered callable plugin with the env capability it appends one synthetic
keyword argument binding `env` to the environment-handle name, leaving the
positional arguments and existing keywords unvisited — so nested calls
inside the arguments are not rewritten, and each further application
appends another copy of the keyword. -/
theorem c3_injector_appends_env_keyword
    (ps : PluginStore) (id : Key) (f : PluginFn) (args : List Expr)
    (kws : List (Key × Expr)) (tln ln : Nat)
    (h1 : ps.get? id = some (.func f)) (h2 : f.wantsEnv = true) :
    injectExpr ps (.call (.name id tln) args kws ln)
      = .call (.name id tln) args
          (kws ++ [(key "env", .name (key "__env__") 0)]) ln := by
  simp [injectExpr, injectCallKeywords, h1, h2]

/-- C3 witness: the injector appends the `env` keyword to `ctx()`. -/
theorem c3_witness :
    injectExpr ctxStore ctxCall
      = .call (.name (key "ctx") 1) [] [(key "env", .name (key "__env__") 0)] 1 :=
  c3_injector_appends_env_keyword ctxStore (key "ctx") envWantingPlugin [] [] 1 1
    (by rfl) (by rfl)

/-- C4 counterexample: evaluating `f(g())` with `f` registered and `g`
unregistered fails with the wrapped NameError (NameResolutionError), not
with UnknownPluginError — the registry check of `evaluate_expr` looks only
at the outermost Call node. -/
theorem c4_nested_unregistered_call_counterexample :
    evaluateExpr sampleStore [] nestedUnknownCall
      = .error (.nameResolution (key "g")) ∧
    (PErr.nameResolution (key "g")).isUnknownPlugin = false :=
  ⟨rfl, rfl⟩

/-- C4 amended: an outermost Call whose callee does not name a registered
plugin fails with UnknownPluginError; a Call evaluated inside the expression
backend whose callee is bound neither in the registry nor in the environment
fails with a NameError (wrapped into NameResolutionError); and a statement
whose expression evaluation fails binds nothing into the Environment. -/
theorem c4_unregistered_callee_behaviour (ps : PluginStore) (env : PyDict)
    (id : Key) (tln : Nat) (args : List Expr) (kws : List (Key × Expr))
    (ln : Nat) :
    (ps.has id = false →
      evaluateExpr ps env (.call (.name id tln) args kws ln)
        = .error (.unknownPlugin ln id)) ∧
    (globalsLookup ps env id = none →
      pyEval ps env (.call (.name id tln) args kws ln) = .error (.nameError id)) ∧
    (∀ er v ln2 post, evaluateExpr ps env v = .error er →
      executeStmts ps (.exprStmt v ln2 :: post) env = (.error er, env)) ∧
    (∀ er tid ttln ts v ln2 post, dictHas env tid = false →
      evaluateExpr ps env v = .error er →
      executeStmts ps (.assign (.name tid ttln :: ts) v ln2 :: post) env
        = (.error er, env)) := by
  refine ⟨?_, ?_, ?_, ?_⟩
  · intro h; simp [evaluateExpr, h]
  · intro h; simp [pyEval, h]
  · intro er v ln2 post h; simp [executeStmts, h]
  · intro er tid ttln ts v ln2 post h1 h2
    simp [executeStmts, executeAssign, h1, h2]

/-- C4 witness: `print("hi")` against the empty registry fails with
UnknownPluginError. -/
theorem c4_witness :
    evaluateExpr psEmpty []
      (.call (.name (key "print") 1) [.constant (.str (key "hi")) 1] [] 1)
      = .error (.unknownPlugin 1 (key "print")) :=
  (c4_unregistered_callee_behaviour psEmpty [] (key "print") 1
    [.constant (.str (key "hi")) 1] [] 1).1 (by rfl)

/-- C5: an assignment whose target name is already bound fails with
IllegalAssignmentError; the environment is exactly the one produced by the
earlier statements of the submission (so the name keeps its original value
and nothing is rolled back), and the statements after the failing one never
execute. -/
theorem c5_reassignment_stops_execution (ps : PluginStore) (env env1 : PyDict)
    (pre : List Stmt) (id : Key) (tln : Nat) (ts : List Expr) (rhs : Expr)
    (ln : Nat) (post : List Stmt)
    (h1 : executeStmts ps pre env = (.ok (), env1))
    (h2 : dictHas env1 id = true) :
    executeStmts ps (pre ++ .assign (.name id tln :: ts) rhs ln :: post) env
      = (.error (.illegalAssignExisting ln id), env1) := by
  rw [executeStmts_append_of_ok ps pre env env1 _ h1]
  simp [executeStmts, executeAssign, h2]

/-- C5 witness: after `a = 0`, the statement `a = 1` fails with
IllegalAssignmentError and the environment still maps `a` to 0. -/
theorem c5_witness :
    executeStmts psEmpty
      ([.assign [.name (key "a") 1] (.constant (.int 0) 1) 1] ++
        .assign (.name (key "a") 2 :: []) (.constant (.int 1) 2) 2 :: []) []
      = (.error (.illegalAssignExisting 2 (key "a")), [(key "a", .int 0)]) :=
  c5_reassignment_stops_execution psEmpty [] [(key "a", .int 0)]
    [.assign [.name (key "a") 1] (.constant (.int 0) 1) 1]
    (key "a") 2 [] (.constant (.int 1) 2) 2 [] (by rfl) (by rfl)

/-- C6: on a backing mapping whose last visible entry is followed only by
hidden entries, `popitem` returns that most recently inserted visible entry,
and the hidden entries are all still present afterwards in their original
relative order. -/
theorem c6_popitem_pops_last_visible_entry {α : Type} (front : List (Key × α))
    (k : Key) (v : α) (suffix : List (Key × α))
    (hk : SafeEnv.hidden k = false)
    (hs : ∀ e ∈ suffix, SafeEnv.hidden e.1 = true) :
    SafeEnv.popitem (front ++ (k, v) :: suffix) = (some (k, v), front ++ suffix) ∧
    (front ++ suffix).filter (fun e => SafeEnv.hidden e.1)
      = (front ++ (k, v) :: suffix).filter (fun e => SafeEnv.hidden e.1) := by
  constructor
  · unfold SafeEnv.popitem
    have hrev : (front ++ (k, v) :: suffix).reverse
        = suffix.reverse ++ ((k, v) :: front.reverse) := by
      simp
    rw [hrev, popitemAux_finds_visible suffix.reverse (k, v) front.reverse []
      (fun x hx => hs x (List.mem_reverse.mp hx)) hk]
    simp
  · simp [List.filter_append, List.filter_cons, hk]

/-- C6 witness: popping from `{a: 0, __h__: 1}` returns `(a, 0)` and keeps
the hidden entry. -/
theorem c6_witness :
    SafeEnv.popitem [(key "a", (0 : Nat)), (key "__h__", 1)]
      = (some (key "a", 0), [(key "__h__", 1)]) ∧
    ([] ++ [(key "__h__", (1 : Nat))]).filter
        (fun e : Key × Nat => SafeEnv.hidden e.1)
      = ([] ++ (key "a", 0) :: [(key "__h__", 1)]).filter
          (fun e : Key × Nat => SafeEnv.hidden e.1) :=
  c6_popitem_pops_last_visible_entry [] (key "a") (0 : Nat)
    [(key "__h__", 1)] (by decide) (by decide)

/-- C7 counterexample: `SafeEnv.get` on a hidden key present in the backing
mapping does not fail — it returns the supplied default instead of raising
ProtectedKeyError. -/
theorem c7_get_hidden_key_counterexample :
    SafeEnv.get [(key "__x__", (1 : Nat))] (key "__x__") 7 = 7 := by decide

/-- C7 amended: on a hidden key, subscript read, subscript write, deletion
and `setdefault` all fail with ProtectedKeyError regardless of whether the
key is present in the backing mapping, while the `get` method (get with a
default) does not fail and returns the default. -/
theorem c7_hidden_key_access_behaviour {α : Type} (inner : List (Key × α))
    (k : Key) (v d : α) (h : SafeEnv.hidden k = true) :
    SafeEnv.getItem inner k = .error (.protectedKey k) ∧
    SafeEnv.setItem inner k v = .error (.protectedKey k) ∧
    SafeEnv.delItem inner k = .error (.protectedKey k) ∧
    SafeEnv.setdefault inner k d = .error (.protectedKey k) ∧
    SafeEnv.get inner k d = d := by
  simp [SafeEnv.getItem, SafeEnv.setItem, SafeEnv.delItem, SafeEnv.setdefault,
    SafeEnv.get, h]

/-- C7 witness: the five operations behave as stated on the hidden key
`__x__` over an empty backing mapping. -/
theorem c7_witness :
    SafeEnv.getItem ([] : List (Key × Nat)) (key "__x__")
      = .error (.protectedKey (key "__x__")) ∧
    SafeEnv.setItem ([] : List (Key × Nat)) (key "__x__") 1
      = .error (.protectedKey (key "__x__")) ∧
    SafeEnv.delItem ([] : List (Key × Nat)) (key "__x__")
      = .error (.protectedKey (key "__x__")) ∧
    SafeEnv.setdefault ([] : List (Key × Nat)) (key "__x__") 7
      = .error (.protectedKey (key "__x__")) ∧
    SafeEnv.get ([] : List (Key × Nat)) (key "__x__") 7 = 7 :=
  c7_hidden_key_access_behaviour [] (key "__x__") 1 7 (by decide)

/-- C8: for a submission that passes validation, both hidden sentinel keys
are present in the prepared environment handed to the executor, the result
of `parse` is exactly the outcome of executing against that prepared
environment followed by stripping, and the environment returned to the
caller holds neither sentinel — whatever the outcome of execution was. -/
theorem c8_sentinels_bracket_execution (ps : PluginStore) (env : PyDict)
    (root : Module) (h : validateModule ps root = .ok ()) :
    dictHas (prepareEnvironment env) builtinsKey = true ∧
    dictHas (prepareEnvironment env) envKey = true ∧
    Parser.parse ps env root
      = ((executeStmts ps root.body (prepareEnvironment env)).1,
          stripEnvironment (executeStmts ps root.body (prepareEnvironment env)).2) ∧
    dictHas (Parser.parse ps env root).2 builtinsKey = false ∧
    dictHas (Parser.parse ps env root).2 envKey = false := by
  have hb : dictHas (prepareEnvironment env) builtinsKey = true := by
    unfold prepareEnvironment
    simp [dictHas,
      dictGet?_dictSet_ne _ _ _ _ (by decide : builtinsKey ≠ envKey),
      dictGet?_dictSet_self]
  have he : dictHas (prepareEnvironment env) envKey = true := by
    unfold prepareEnvironment
    simp [dictHas, dictGet?_dictSet_self]
  have hparse : Parser.parse ps env root
      = ((executeStmts ps root.body (prepareEnvironment env)).1,
          stripEnvironment (executeStmts ps root.body (prepareEnvironment env)).2) := by
    unfold Parser.parse
    rw [h]
  have hdb : dictHas
      (stripEnvironment (executeStmts ps root.body (prepareEnvironment env)).2)
      builtinsKey = false := by
    unfold stripEnvironment
    exact dictHas_dictDel_of_not _ _ _ (dictHas_dictDel_self _ _)
  have hde : dictHas
      (stripEnvironment (executeStmts ps root.body (prepareEnvironment env)).2)
      envKey = false := by
    unfold stripEnvironment
    exact dictHas_dictDel_self _ _
  refine ⟨hb, he, hparse, ?_, ?_⟩
  · rw [hparse]; exact hdb
  · rw [hparse]; exact hde

/-- C8 witness: for the submission `a = 0` against an empty environment, the
prepared environment holds both sentinels and the returned environment holds
neither. -/
theorem c8_witness :
    dictHas (prepareEnvironment []) builtinsKey = true ∧
    dictHas (prepareEnvironment []) envKey = true ∧
    Parser.parse psEmpty [] sampleModule
      = ((executeStmts psEmpty sampleModule.body (prepareEnvironment [])).1,
          stripEnvironment
            (executeStmts psEmpty sampleModule.body (prepareEnvironment [])).2) ∧
    dictHas (Parser.parse psEmpty [] sampleModule).2 builtinsKey = false ∧
    dictHas (Parser.parse psEmpty [] sampleModule).2 envKey = false :=
  c8_sentinels_bracket_execution psEmpty [] sampleModule (by rfl)

/-- C9: on a backing mapping without visible entries (empty or all hidden),
`popitem` fails with KeyError and leaves the backing mapping unchanged: the
hidden entries it removed during the scan are all reinserted in their
original relative order. -/
theorem c9_popitem_without_visible_entry {α : Type} (inner : List (Key × α))
    (h : ∀ e ∈ inner, SafeEnv.hidden e.1 = true) :
    SafeEnv.popitem inner = (none, inner) := by
  unfold SafeEnv.popitem
  rw [popitemAux_all_hidden inner.reverse []
    (fun e he => h e (List.mem_reverse.mp he))]
  simp

/-- C9 witness: popping from the all-hidden mapping `{__a__: 0}` fails and
restores the mapping. -/
theorem c9_witness :
    SafeEnv.popitem [(key "__a__", (0 : Nat))] = (none, [(key "__a__", 0)]) :=
  c9_popitem_without_visible_entry [(key "__a__", (0 : Nat))] (by decide)

/-- C10: every top-level statement of a module the Safety Validator accepts
is an Assign or an expression statement, so the fallback branch of the
executor that raises an illegal-syntax error for other statement kinds is
unreachable on validated submissions. -/
theorem c10_validated_statements_are_assign_or_expr (ps : PluginStore)
    (root : Module) (h : validateModule ps root = .ok ()) :
    ∀ stmt ∈ root.body, (∃ ts v ln, stmt = .assign ts v ln) ∨
      (∃ v ln, stmt = .exprStmt v ln) :=
  validateStmts_ok_shapes ps root.body h

/-- C10 witness: the single statement of the validated submission `a = 0`
is an assignment. -/
theorem c10_witness :
    (∃ ts v ln, (Stmt.assign [Expr.name (key "a") 1] (.constant (.int 0) 1) 1)
        = Stmt.assign ts v ln) ∨
    (∃ v ln, (Stmt.assign [Expr.name (key "a") 1] (.constant (.int 0) 1) 1)
        = Stmt.exprStmt v ln) :=
  c10_validated_statements_are_assign_or_expr psEmpty sampleModule (by rfl)
    (Stmt.assign [Expr.name (key "a") 1] (.constant (.int 0) 1) 1)
    (by simp [sampleModule])

end SafeParser
